import Mathlib

set_option maxHeartbeats 1000000

/-!
Shallow embedding of the Go-in-JS runtime bridge (src/Go.js) and proofs
about its value table, boxed-value wire format, memory accessors,
argv marshalling, syscall layer and run-loop guards.

Machine integers are modelled as Nat (with explicit reductions modulo
2 ^ 32 / 2 ^ 64 where the JS typed-array views truncate) and Int where the
source reads signed words.  JS doubles are modelled by their 64-bit IEEE-754
bit patterns: `DataView.setFloat64` / `getFloat64` preserve the bit pattern,
and `isNaN` is a predicate on the pattern, so no floating-point arithmetic
is needed for the operations modelled here.  Fallible JS code (property
access on `undefined`, `DataView` range errors, `throw`) is modelled with
`Except HostVal`, the error being the thrown JS value.
-/

namespace GoJs

/-- Linear memory of the instantiated module: byte addressable, modelled as
a total function from byte addresses to byte values. -/
def Mem : Type := Nat → Nat

/-- Fresh all-zero memory. -/
def zeroMem : Mem := fun _ => 0

/-- Write a single byte (stores through a DataView truncate to the byte). -/
def writeByte (m : Mem) (a v : Nat) : Mem := fun x => if x = a then v % 256 else m x

/-- Write an n-byte little-endian value starting at address a. -/
def writeBytesLE : Mem → Nat → Nat → Nat → Mem
  | m, _, 0, _ => m
  | m, a, n+1, v => writeBytesLE (writeByte m a v) (a + 1) n (v / 256)

/-- Read an n-byte little-endian value starting at address a. -/
def readBytesLE : Mem → Nat → Nat → Nat
  | _, _, 0 => 0
  | m, a, n+1 => m a + 256 * readBytesLE m (a + 1) n

/-- Write a raw list of bytes starting at address a. -/
def writeList : Mem → Nat → List Nat → Mem
  | m, _, [] => m
  | m, a, b :: bs => writeList (writeByte m a b) (a + 1) bs

/-- Read n raw bytes starting at address a. -/
def readBytesList : Mem → Nat → Nat → List Nat
  | _, _, 0 => []
  | m, a, n+1 => m a :: readBytesList m (a + 1) n

/-- Go.js `setUint32`: `this.mem.setUint32(addr, val, true)` (little endian,
value coerced ToUint32). -/
def setUint32 (m : Mem) (a v : Nat) : Mem := writeBytesLE m a 4 v

/-- Go.js `getUint32`: `this.mem.getUint32(addr, true)`. -/
def getUint32 (m : Mem) (a : Nat) : Nat := readBytesLE m a 4

/-- Go.js `setUint8`. -/
def setUint8 (m : Mem) (a v : Nat) : Mem := writeBytesLE m a 1 v

/-- Read one byte back (used for the success flags written by `setUint8`). -/
def getUint8 (m : Mem) (a : Nat) : Nat := readBytesLE m a 1

/-- Reinterpret a 32-bit word as a signed two's-complement integer, as
`DataView.getInt32` does. -/
def toSigned32 (w : Nat) : Int :=
  if w % 4294967296 < 2147483648 then ((w % 4294967296 : Nat) : Int)
  else ((w % 4294967296 : Nat) : Int) - 4294967296

/-- Go.js `getInt32`: `this.mem.getInt32(addr + 0, true)` (signed read). -/
def getInt32 (m : Mem) (a : Nat) : Int := toSigned32 (readBytesLE m a 4)

/-- Go.js `getInt64`: reads the low word with the SIGNED accessor `getInt32`
(the upstream reference implementation reads it unsigned) and the high word
signed, returning `low + high * 4294967296`. -/
def getInt64 (m : Mem) (a : Nat) : Int := getInt32 m a + getInt32 m (a + 4) * 4294967296

/-- Go.js `setInt32`: `this.mem.setInt32(addr, val, true)`; the value is
coerced ToInt32, whose byte image is the value modulo 2 ^ 32. -/
def setInt32 (m : Mem) (a : Nat) (v : Int) : Mem :=
  writeBytesLE m a 4 (v % 4294967296).toNat

/-- Go.js `setInt64`: `setUint32(addr, val); setUint32(addr + 4, Math.floor(val / 4294967296))`.
The claims exercise it on non-negative integers in the 53-bit-safe range,
where JS `Math.floor(val / 4294967296)` coincides with Nat division. -/
def setInt64 (m : Mem) (a : Nat) (v : Nat) : Mem :=
  setUint32 (setUint32 m a v) (a + 4) (v / 4294967296)

/-- Go.js `setFloat64` at the bit-pattern level: the 8 bytes of the double's
IEEE-754 representation, little endian. -/
def setFloat64 (m : Mem) (a bits : Nat) : Mem := writeBytesLE m a 8 bits

/-- Go.js `getFloat64` at the bit-pattern level. -/
def getFloat64 (m : Mem) (a : Nat) : Nat := readBytesLE m a 8

/-- The boxed-value NaN tag used by `storeValue`: `0x7FF80000`. -/
def nanHead : Nat := 2146959360

/-- Bit pattern of the canonical JS `NaN` (the value seeded at table id 0):
`0x7FF8000000000000`. -/
def nanBits : Nat := 9221120237041090560

/-- NaN test on a 64-bit IEEE-754 pattern: exponent field all ones and
non-zero mantissa.  This is exactly when JS `isNaN` holds of the double
with that pattern. -/
def isNaNBits (b : Nat) : Bool :=
  decide (b / 4503599627370496 % 2048 = 2047) && decide (b % 4503599627370496 ≠ 0)

/-- Host-side JS values as seen at the bridge boundary.  Numbers carry their
64-bit IEEE-754 bit pattern; non-primitive values (objects, functions,
symbols) carry a model-level identity; `errObj` is an Error instance
carrying its message (thrown values cross the boundary as ordinary
values). -/
inductive HostVal : Type where
  | num (bits : Nat)
  | undef
  | null
  | boolean (b : Bool)
  | str (s : String)
  | sym (id : Nat)
  | fn (id : Nat)
  | obj (id : Nat)
  | errObj (msg : String)
  deriving DecidableEq, Repr

/-- A thrown TypeError (property access on `undefined`, method call on a
missing map, ...). -/
def typeErrorVal : HostVal := HostVal.errObj "TypeError"

/-- A thrown RangeError (DataView constructed with a negative offset or
length). -/
def rangeErrorVal : HostVal := HostVal.errObj "RangeError"

/-- The values the claims call primitive for boxing purposes: numbers,
`undefined`, `null` and the booleans.  Everything else goes through the
value table. -/
def isBoxPrimitive : HostVal → Bool
  | HostVal.num _ => true
  | HostVal.undef => true
  | HostVal.null => true
  | HostVal.boolean _ => true
  | _ => false

/-- Well-formedness of a host value: a number's bit pattern fits in 64 bits. -/
def wfVal : HostVal → Prop
  | HostVal.num b => b < 18446744073709551616
  | _ => True

/-- The `typeof`-based type flag of `storeValue`: string 1, symbol 2,
function 3, other references 0. -/
def typeFlag : HostVal → Nat
  | HostVal.str _ => 1
  | HostVal.sym _ => 2
  | HostVal.fn _ => 3
  | _ => 0

/-- Observational equality at the boundary: numbers are equal when their
patterns agree or both are NaN; all other values structurally. -/
def obsEq : HostVal → HostVal → Bool
  | HostVal.num a, HostVal.num b => decide (a = b) || (isNaNBits a && isNaNBits b)
  | x, y => decide (x = y)

/-- JS numeric slot that may hold `undefined` or `NaN` (used for the never
initialised `_nextCallbackTimeoutID`). -/
inductive JSNum : Type where
  | undef
  | nan
  | int (n : Int)
  deriving DecidableEq, Repr

/-- JS `x++` on such a slot: `undefined` coerces to NaN. -/
def jsnumIncr : JSNum → JSNum
  | JSNum.undef => JSNum.nan
  | JSNum.nan => JSNum.nan
  | JSNum.int n => JSNum.int (n + 1)

/-- JS ToInt32 of such a slot (`undefined` and NaN coerce to 0). -/
def jsToInt32 : JSNum → Int
  | JSNum.undef => 0
  | JSNum.nan => 0
  | JSNum.int n => toSigned32 (n % 4294967296).toNat

/-- First-match lookup in an insertion-order association list, modelling
JS `Map.prototype.get` (keys reaching `_refs` are strings, symbols,
functions and objects, on which SameValueZero agrees with structural
equality of the model). -/
def mapGet {κ ν : Type} [DecidableEq κ] : List (κ × ν) → κ → Option ν
  | [], _ => none
  | (k0, v0) :: rest, k => if k0 = k then some v0 else mapGet rest k

/-- JS `Map.prototype.set`: overwrite in place if present, append otherwise. -/
def mapSet {κ ν : Type} [DecidableEq κ] : List (κ × ν) → κ → ν → List (κ × ν)
  | [], k, v => [(k, v)]
  | (k0, v0) :: rest, k, v =>
      if k0 = k then (k, v) :: rest else (k0, v0) :: mapSet rest k v

/-- Mutable state of one `Go` bridge object.  Fields deleted by `wasmExit`
(`_values`, `_refs`) are `Option`s, `none` modelling a JS `undefined`
property; `_callbackTimeouts` is `none` because no code in the repository
ever initialises it.  `instancePresent` models `!!this.instance`;
`entryCalls` instruments the number of `this.instance.exports.run`
invocations made by the run loop; `wakeScheduled` models a pending
`setTimeout(resolve, 0)`; `exitCode` records the code passed to the
embedder's `exit` callback. -/
structure GoState : Type where
  values : Option (List HostVal)
  refs : Option (List (HostVal × Nat))
  mem : Mem
  exited : Bool
  running : Bool
  instancePresent : Bool
  env : List (String × String)
  callbackTimeouts : Option (List (JSNum × Int))
  nextCallbackTimeoutID : JSNum
  callbackShutdown : Bool
  entryCalls : Nat
  wakeScheduled : Bool
  exitCode : Option Int

/-- The `internalGlobal` object of Go.js (table id 5 after load). -/
def internalGlobalV : HostVal := HostVal.obj 0

/-- The `this.instance.exports.mem` buffer object (table id 6 after load). -/
def memExportV : HostVal := HostVal.obj 1

/-- The bridge instance itself, `this` (table id 7 after load). -/
def goSelfV : HostVal := HostVal.obj 2

/-- The value table seeded by `load()`:
`[NaN, undefined, null, true, false, internalGlobal, this.instance.exports.mem, this]`. -/
def reservedValues : List HostVal :=
  [HostVal.num nanBits, HostVal.undef, HostVal.null, HostVal.boolean true,
   HostVal.boolean false, internalGlobalV, memExportV, goSelfV]

/-- Bridge state right after the constructor's `load()` has resolved:
`_refs` is a fresh empty map, `_callbackShutdown`, `exited` and `running`
are false, the instance is set and `_values` holds the eight reserved
entries.  `_callbackTimeouts` and `_nextCallbackTimeoutID` are never
assigned anywhere in Go.js, so they are still undefined. -/
def initState : GoState where
  values := some reservedValues
  refs := some []
  mem := zeroMem
  exited := false
  running := false
  instancePresent := true
  env := []
  callbackTimeouts := none
  nextCallbackTimeoutID := JSNum.undef
  callbackShutdown := false
  entryCalls := 0
  wakeScheduled := false
  exitCode := none

/-- Go.js `get loaded()`: `!!this.instance`. -/
def loaded (s : GoState) : Bool := s.instancePresent

/-- Go.js `loadValue`: read the slot as a float; non-NaN patterns are the
number itself, otherwise the low 32-bit word indexes `this._values`
(a JS out-of-range array read yields `undefined`; reading `this._values`
after `wasmExit` deleted it throws a TypeError). -/
def loadValue (s : GoState) (addr : Nat) : Except HostVal HostVal :=
  let f := getFloat64 s.mem addr
  if isNaNBits f = false then Except.ok (HostVal.num f)
  else
    let id := getUint32 s.mem addr
    match s.values with
    | none => Except.error typeErrorVal
    | some vs => Except.ok ((vs[id]?).getD HostVal.undef)

/-- Byte image of the boxed encoding `storeValue` writes for a value with
reference word `lo` and high word `hi`: it sets `addr + 4` first, then
`addr`. -/
def boxWrite (m : Mem) (addr lo hi : Nat) : Mem :=
  setUint32 (setUint32 m (addr + 4) hi) addr lo

/-- Interning path of `storeValue` (the code after the primitive cases):
look the value up in `this._refs`, append to `this._values` when absent,
then write `nanHead | typeFlag` and the index. -/
def storeRef (s : GoState) (addr : Nat) (v : HostVal) : Except HostVal GoState :=
  match s.refs with
  | none => Except.error typeErrorVal
  | some rs =>
    match mapGet rs v with
    | some r => Except.ok { s with mem := boxWrite s.mem addr r (nanHead ||| typeFlag v) }
    | none =>
      match s.values with
      | none => Except.error typeErrorVal
      | some vs =>
        Except.ok { s with
          values := some (vs ++ [v]),
          refs := some (mapSet rs v vs.length),
          mem := boxWrite s.mem addr vs.length (nanHead ||| typeFlag v) }

/-- Go.js `storeValue`: numbers are stored as raw floats (NaN re-encoded as
the canonical tag with index 0); `undefined`, `null`, `true`, `false` as
the reserved ids 1-4; everything else through the interning path. -/
def storeValue (s : GoState) (addr : Nat) (v : HostVal) : Except HostVal GoState :=
  match v with
  | HostVal.num bits =>
    if isNaNBits bits then Except.ok { s with mem := boxWrite s.mem addr 0 nanHead }
    else Except.ok { s with mem := setFloat64 s.mem addr bits }
  | HostVal.undef => Except.ok { s with mem := boxWrite s.mem addr 1 nanHead }
  | HostVal.null => Except.ok { s with mem := boxWrite s.mem addr 2 nanHead }
  | HostVal.boolean true => Except.ok { s with mem := boxWrite s.mem addr 3 nanHead }
  | HostVal.boolean false => Except.ok { s with mem := boxWrite s.mem addr 4 nanHead }
  | _ => storeRef s addr v

/-- UTF-8 encoding of a single code point (what `TextEncoder.encode` emits
per character). -/
def utf8EncodeChar (c : Nat) : List Nat :=
  if c < 128 then [c]
  else if c < 2048 then [192 + c / 64, 128 + c % 64]
  else if c < 65536 then [224 + c / 4096, 128 + c / 64 % 64, 128 + c % 64]
  else [240 + c / 262144, 128 + c / 4096 % 64, 128 + c / 64 % 64, 128 + c % 64]

/-- UTF-8 byte image of a string. -/
def utf8Bytes (s : String) : List Nat :=
  (s.data.map (fun c => utf8EncodeChar c.toNat)).flatten

/-- The U+FFFD replacement character a non-fatal `TextDecoder` substitutes
for malformed input. -/
def replacementChar : Char := Char.ofNat 65533

/-- UTF-8 continuation byte test. -/
def isCont (b : Nat) : Bool := decide (128 ≤ b) && decide (b < 192)

/-- Code point to character, replacing surrogate or out-of-range values. -/
def mkChar (n : Nat) : Char :=
  if n < 55296 then Char.ofNat n
  else if 57343 < n ∧ n < 1114112 then Char.ofNat n
  else replacementChar

/-- Fuel-driven UTF-8 decoder modelling `TextDecoder('utf-8')` in its
default non-fatal mode; exact on well-formed input, and substitutes
U+FFFD on malformed bytes. -/
def utf8DecodeAux : Nat → List Nat → List Char
  | 0, _ => []
  | _+1, [] => []
  | fuel+1, b :: rest =>
    if b < 128 then mkChar b :: utf8DecodeAux fuel rest
    else if b < 192 then replacementChar :: utf8DecodeAux fuel rest
    else if b < 224 then
      match rest with
      | b2 :: rest2 =>
        if isCont b2 then mkChar ((b - 192) * 64 + (b2 - 128)) :: utf8DecodeAux fuel rest2
        else replacementChar :: utf8DecodeAux fuel rest
      | [] => [replacementChar]
    else if b < 240 then
      match rest with
      | b2 :: b3 :: rest3 =>
        if isCont b2 && isCont b3 then
          mkChar ((b - 224) * 4096 + (b2 - 128) * 64 + (b3 - 128)) :: utf8DecodeAux fuel rest3
        else replacementChar :: utf8DecodeAux fuel rest
      | _ => [replacementChar]
    else
      match rest with
      | b2 :: b3 :: b4 :: rest4 =>
        if isCont b2 && isCont b3 && isCont b4 then
          mkChar ((b - 240) * 262144 + (b2 - 128) * 4096 + (b3 - 128) * 64 + (b4 - 128))
            :: utf8DecodeAux fuel rest4
        else replacementChar :: utf8DecodeAux fuel rest
      | _ => [replacementChar]

/-- Decode a byte list to a string. -/
def utf8Decode (l : List Nat) : String := String.mk (utf8DecodeAux l.length l)

/-- Go.js `loadString`: `saddr` and `len` via `getInt64`, then decode the
byte range (a negative offset or length makes the `DataView` constructor
throw a RangeError). -/
def loadString (s : GoState) (addr : Nat) : Except HostVal String :=
  let saddr := getInt64 s.mem addr
  let len := getInt64 s.mem (addr + 8)
  if saddr < 0 ∨ len < 0 then Except.error rangeErrorVal
  else Except.ok (utf8Decode (readBytesList s.mem saddr.toNat len.toNat))

/-- Loading one boxed value at a possibly negative computed address
(`DataView` accessors throw a RangeError on a negative offset). -/
def loadValueOff (s : GoState) (a : Int) : Except HostVal HostVal :=
  if a < 0 then Except.error rangeErrorVal else loadValue s a.toNat

/-- Go.js `loadSliceOfValues`: base and length via `getInt64`, then one
`loadValue` per element at 8-byte strides (a negative length runs the
loop zero times). -/
def loadSliceOfValues (s : GoState) (addr : Nat) : Except HostVal (List HostVal) :=
  let array := getInt64 s.mem addr
  let len := getInt64 s.mem (addr + 8)
  (List.range len.toNat).mapM (fun i => loadValueOff s (array + 8 * (i : Int)))

/-- The host-side reflective operations `valueCall` / `valueInvoke` /
`valueNew` delegate to (`obj[name]`, `Reflect.apply`, `Reflect.construct`).
They may return a value or throw one. -/
structure Host : Type where
  getProp : HostVal → String → Except HostVal HostVal
  apply : HostVal → HostVal → List HostVal → Except HostVal HostVal
  construct : HostVal → List HostVal → Except HostVal HostVal

/-- Body of the `try` block of `valueCall` up to the host call:
load receiver, method name, the method, the argument slice, then apply. -/
def callAttempt (h : Host) (s : GoState) (addr : Nat) : Except HostVal HostVal := do
  let obj ← loadValue s (addr + 8)
  let name ← loadString s (addr + 16)
  let method ← h.getProp obj name
  let args ← loadSliceOfValues s (addr + 32)
  h.apply method obj args

/-- Body of the `try` block of `valueInvoke` up to the host call
(`Reflect.apply(obj, undefined, args)`). -/
def invokeAttempt (h : Host) (s : GoState) (addr : Nat) : Except HostVal HostVal := do
  let obj ← loadValue s (addr + 8)
  let args ← loadSliceOfValues s (addr + 16)
  h.apply obj HostVal.undef args

/-- Body of the `try` block of `valueNew` up to the host call
(`Reflect.construct(obj, args)`). -/
def newAttempt (h : Host) (s : GoState) (addr : Nat) : Except HostVal HostVal := do
  let obj ← loadValue s (addr + 8)
  let args ← loadSliceOfValues s (addr + 16)
  h.construct obj args

/-- Shared tail of `valueCall` / `valueInvoke` / `valueNew`: on success of
the attempt, box the result and set the flag byte to 1; on a thrown value,
the `catch` block boxes the thrown value and sets the flag to 0.  A throw
inside the `catch` block itself (only possible once `wasmExit` has deleted
the table) propagates. -/
def finishDispatch (s : GoState) (resAddr flagAddr : Nat)
    (att : Except HostVal HostVal) : Except HostVal GoState :=
  match att with
  | Except.ok res =>
    match storeValue s resAddr res with
    | Except.ok s1 => Except.ok { s1 with mem := setUint8 s1.mem flagAddr 1 }
    | Except.error err =>
      match storeValue s resAddr err with
      | Except.ok s1 => Except.ok { s1 with mem := setUint8 s1.mem flagAddr 0 }
      | Except.error e2 => Except.error e2
  | Except.error err =>
    match storeValue s resAddr err with
    | Except.ok s1 => Except.ok { s1 with mem := setUint8 s1.mem flagAddr 0 }
    | Except.error e2 => Except.error e2

/-- Go.js `valueCall`: result slot at `addr + 56`, flag byte at `addr + 64`. -/
def valueCall (h : Host) (s : GoState) (addr : Nat) : Except HostVal GoState :=
  finishDispatch s (addr + 56) (addr + 64) (callAttempt h s addr)

/-- Go.js `valueInvoke`: result slot at `addr + 40`, flag byte at `addr + 48`. -/
def valueInvoke (h : Host) (s : GoState) (addr : Nat) : Except HostVal GoState :=
  finishDispatch s (addr + 40) (addr + 48) (invokeAttempt h s addr)

/-- Go.js `valueNew`: result slot at `addr + 40`, flag byte at `addr + 48`. -/
def valueNew (h : Host) (s : GoState) (addr : Nat) : Except HostVal GoState :=
  finishDispatch s (addr + 40) (addr + 48) (newAttempt h s addr)

/-- The value an attempt delivered across the boundary: the returned value
on success, the thrown value on failure. -/
def outcomeVal : Except HostVal HostVal → HostVal
  | Except.ok r => r
  | Except.error e => e

/-- Boolean check that the slot at `addr` decodes to a value observationally
equal to `v`. -/
def loadCheck (s : GoState) (addr : Nat) (v : HostVal) : Bool :=
  match loadValue s addr with
  | Except.ok w => obsEq w v
  | Except.error _ => false

/-- Boolean statement of dispatch isolation for one operation: the bridge
call returned (nothing propagated), the flag byte matches the attempt's
success, and the result slot holds the outcome value. -/
def dispatchChecks (att : Except HostVal HostVal) (out : Except HostVal GoState)
    (resAddr flagAddr : Nat) : Bool :=
  match out with
  | Except.error _ => false
  | Except.ok s2 =>
    (getUint8 s2.mem flagAddr == (match att with | Except.ok _ => 1 | Except.error _ => 0))
      && loadCheck s2 resAddr (outcomeVal att)

/-- Go.js `wasmExit`: read the code, mark `exited`, `delete this._inst`
(a no-op, since the field holding the instance is named `instance`), delete
`_values` and `_refs`, and invoke the embedder's `exit` callback with the
code (recorded here in `exitCode`).  Neither `running` nor `instance` is
touched. -/
def wasmExit (s : GoState) (addr : Nat) : GoState :=
  { s with exited := true, values := none, refs := none,
           exitCode := some (getInt32 s.mem (addr + 8)) }

/-- Go.js `scheduleCallback`: reads `this._nextCallbackTimeoutID` (undefined:
nothing in the repository ever initialises it), post-increments it, then
calls `this._callbackTimeouts.set(...)` - which throws a TypeError because
`_callbackTimeouts` is also never initialised.  With an initialised map the
code would register `setTimeout(resolve, delay + 1)` under the id and write
the id back at `addr + 16`.  The state/result pair models JS semantics
where mutations made before a throw persist. -/
def scheduleCallback (s : GoState) (addr : Nat) : GoState × Except HostVal Unit :=
  let id := s.nextCallbackTimeoutID
  let s1 := { s with nextCallbackTimeoutID := jsnumIncr id }
  match s1.callbackTimeouts with
  | none => (s1, Except.error typeErrorVal)
  | some timeouts =>
    let delay := getInt64 s1.mem (addr + 8) + 1
    let s2 := { s1 with callbackTimeouts := some (mapSet timeouts id delay) }
    ({ s2 with mem := setInt32 s2.mem (addr + 16) (jsToInt32 id) }, Except.ok ())

/-- The resolver closure `run` installs for each loop iteration
(`this._resolveCallbackPromise`): firing it after the program exited throws;
otherwise it schedules the wake-up (`setTimeout(resolve, 0)`). -/
def resolveCallbackPromise (s : GoState) : Except HostVal GoState :=
  if s.exited then Except.error (HostVal.errObj "bad callback: Go program has already exited")
  else Except.ok { s with wakeScheduled := true }

/-- JSON.stringify's hexadecimal digits for control-character escapes. -/
def hexDigit (n : Nat) : Char :=
  if n < 10 then Char.ofNat (48 + n) else Char.ofNat (87 + n)

/-- One character of JSON.stringify's string quoting. -/
def jsonEscapeChar (c : Char) : List Char :=
  if c = Char.ofNat 34 then [Char.ofNat 92, Char.ofNat 34]
  else if c = Char.ofNat 92 then [Char.ofNat 92, Char.ofNat 92]
  else if c = Char.ofNat 8 then [Char.ofNat 92, Char.ofNat 98]
  else if c = Char.ofNat 9 then [Char.ofNat 92, Char.ofNat 116]
  else if c = Char.ofNat 10 then [Char.ofNat 92, Char.ofNat 110]
  else if c = Char.ofNat 12 then [Char.ofNat 92, Char.ofNat 102]
  else if c = Char.ofNat 13 then [Char.ofNat 92, Char.ofNat 114]
  else if c.toNat < 32 then
    [Char.ofNat 92, Char.ofNat 117, Char.ofNat 48, Char.ofNat 48,
     hexDigit (c.toNat / 16), hexDigit (c.toNat % 16)]
  else [c]

/-- `JSON.stringify` applied to a string: the quoted, escaped form
(so `JSON.stringify("prog")` is the six-character string `"prog"` with the
quotes included). -/
def jsonStringifyStr (s : String) : String :=
  String.mk (Char.ofNat 34 :: (s.data.map jsonEscapeChar).flatten ++ [Char.ofNat 34])

/-- Insertion into a sorted list of strings (code-point order, agreeing with
the default JS `Array.prototype.sort` comparison on the strings involved
here). -/
def insertSorted (x : String) : List String → List String
  | [] => [x]
  | y :: ys => if x ≤ y then x :: y :: ys else y :: insertSorted x ys

/-- Sorting `Object.keys(this.env).sort()`. -/
def sortStrings : List String → List String
  | [] => []
  | x :: xs => insertSorted x (sortStrings xs)

/-- Map with a threaded accumulator, used to run the `strPtr` closure over
the argument and environment strings in order. -/
def mapAccumL {σ α β : Type} (f : σ → α → σ × β) : σ → List α → σ × List β
  | st, [] => (st, [])
  | st, x :: xs =>
    let (st1, y) := f st x
    let (st2, ys) := mapAccumL f st1 xs
    (st2, y :: ys)

/-- JS `this.env[key]` rendered through a template literal (a missing key
would render as the string `undefined`). -/
def envLookup (env : List (String × String)) (k : String) : String :=
  match env.lookup k with
  | some v => v
  | none => "undefined"

/-- The `strPtr` closure of `run`: write the NUL-terminated UTF-8 bytes of
the string at the current offset, return the old offset, and advance by
`str.length + (8 - str.length % 8)`.  (JS `str.length` counts UTF-16 code
units; the model counts code points, which agrees on the ASCII strings
the marshalling claims use.) -/
def strPtrStep (acc : Mem × Nat) (str : String) : (Mem × Nat) × Nat :=
  let bytes := utf8Bytes str ++ [0]
  let m := writeList acc.1 acc.2 bytes
  ((m, acc.2 + str.length + (8 - str.length % 8)), acc.2)

/-- The argv block `run` builds in linear memory. -/
structure ArgvBlock : Type where
  mem : Mem
  endOffset : Nat
  argc : Nat
  argv : Nat

/-- Marshalling section of `run` (lines 68-98): starting at offset 4096,
write `JSON.stringify` of each argument via `strPtr`, then the sorted
`key=value` environment strings, then the pointer table: one
`(ptr, 0)` 32-bit pair per argument pointer, followed by the key count and
the environment string pointers, at 8-byte strides.  `argc` is the
argument count and `argv` the base of the pointer table. -/
def marshalArgv (args : List String) (env : List (String × String)) (m0 : Mem) : ArgvBlock :=
  let st0 : Mem × Nat := (m0, 4096)
  let (st1, argPtrs) := mapAccumL strPtrStep st0 (args.map jsonStringifyStr)
  let keys := sortStrings (env.map Prod.fst)
  let (st2, envPtrs) := mapAccumL strPtrStep st1 (keys.map (fun k => k ++ "=" ++ envLookup env k))
  let ptrs := argPtrs ++ keys.length :: envPtrs
  let argv := st2.2
  let final := ptrs.foldl
    (fun (acc : Mem × Nat) ptr => (setUint32 (setUint32 acc.1 acc.2 ptr) (acc.2 + 4) 0, acc.2 + 8))
    (st2.1, argv)
  { mem := final.1, endOffset := final.2, argc := args.length, argv := argv }

/-- The guest entry point `this.instance.exports.run(argc, argv)`, which may
mutate the bridge state through the imported functions. -/
structure Guest : Type where
  step : Nat → Nat → GoState → GoState

/-- The run loop of `run`: invoke the entry point, stop when the guest
exited, otherwise suspend until the pending callback resolves and iterate.
The asynchronous suspension itself has no observable bridge-state effect in
this sequential model; `fuel` bounds the number of iterations modelled and
`entryCalls` counts entry-point invocations. -/
def runLoop (g : Guest) : Nat → GoState → Nat → Nat → GoState × Except HostVal Unit
  | 0, s, _, _ => (s, Except.ok ())
  | fuel+1, s, argc, argv =>
    let s1 := g.step argc argv { s with entryCalls := s.entryCalls + 1 }
    if s1.exited then (s1, Except.ok ())
    else runLoop g fuel s1 argc argv

/-- Go.js `run(...params)`: after awaiting load, throw
`Go Module already running` if `running` is not false; otherwise set
`running`, marshal `['main.wasm', ...params]` and the environment, and
drive the run loop. -/
def run (g : Guest) (fuel : Nat) (s : GoState) (params : List String) :
    GoState × Except HostVal Unit :=
  if s.running then (s, Except.error (HostVal.errObj "Go Module already running"))
  else
    let s1 := { s with running := true }
    let blk := marshalArgv ("main.wasm" :: params) s1.env s1.mem
    runLoop g fuel { s1 with mem := blk.mem } blk.argc blk.argv

/-- Read a NUL-terminated byte string (fuel-bounded). -/
def readCString : Mem → Nat → Nat → List Nat
  | _, _, 0 => []
  | m, a, fuel+1 => if m a = 0 then [] else m a :: readCString m (a + 1) fuel

/-- Modelled from the spec: the reference decoder for the argv block (the
decoder itself is not part of src/, only described in the spec's testable
properties).  Given `argc` and the pointer-table base, read the `argc`
argument strings from their pointers at 8-byte strides, then the
environment-entry count, then that many environment strings. -/
def decodeArgv (m : Mem) (argc argv : Nat) : List (List Nat) × Nat × List (List Nat) :=
  let args := (List.range argc).map (fun i => readCString m (getUint32 m (argv + 8 * i)) 256)
  let envc := getUint32 m (argv + 8 * argc)
  let envs := (List.range envc).map
    (fun i => readCString m (getUint32 m (argv + 8 * (argc + 1 + i))) 256)
  (args, envc, envs)

/-- The reserved singleton bindings at table ids 0-4 that the primitive
boxed encodings decode through. -/
def ReservedOK (vs : List HostVal) : Prop :=
  vs[0]? = some (HostVal.num nanBits) ∧ vs[1]? = some HostVal.undef ∧
  vs[2]? = some HostVal.null ∧ vs[3]? = some (HostVal.boolean true) ∧
  vs[4]? = some (HostVal.boolean false)

/-- Consistency of the reverse map with the table: an interned id is bound
to its value. -/
def RefsConsistent (vs : List HostVal) (rs : List (HostVal × Nat)) : Prop :=
  ∀ v i, mapGet rs v = some i → vs[i]? = some v

/-- A value already interned in the value table. -/
def Interned (vs : List HostVal) (rs : List (HostVal × Nat)) (v : HostVal) : Prop :=
  ∃ i, mapGet rs v = some i ∧ vs[i]? = some v

/-- A freshly loaded state whose slot at address 0 holds a boxed reference
with out-of-range index 100 (the table has 8 entries). -/
def c5State : GoState := { initState with mem := boxWrite zeroMem 0 100 nanHead }

/-- A freshly loaded state whose slot at address 3 holds a boxed reference
with out-of-range index 200. -/
def c5StateB : GoState := { initState with mem := boxWrite zeroMem 3 200 nanHead }

/-- The argv block built for argument list `["prog", "42"]` and environment
`{"A": "1"}`. -/
def c2Block : ArgvBlock := marshalArgv ["prog", "42"] [("A", "1")] zeroMem

/-- A loaded state on which the guest has already exited. -/
def exitedState : GoState := { initState with exited := true }

/-- A loaded state with a `run` in progress. -/
def runningState : GoState := { initState with running := true }

/-- A guest whose entry point leaves the bridge state unchanged. -/
def idGuest : Guest := { step := fun _ _ st => st }

/-- A concrete host for exercising the dispatch operations: property reads
succeed, application throws, construction succeeds. -/
def constHost : Host where
  getProp := fun _ _ => Except.ok (HostVal.str "m")
  apply := fun _ _ _ => Except.error (HostVal.errObj "boom")
  construct := fun _ _ => Except.ok HostVal.null

/-! Byte-level lemmas about the linear-memory model. -/

theorem writeBytesLE_outside (n : Nat) (m : Mem) (a v x : Nat)
    (h : x < a ∨ a + n ≤ x) : writeBytesLE m a n v x = m x := by
  induction n generalizing m a v with
  | zero => rfl
  | succ n ih =>
    show writeBytesLE (writeByte m a v) (a + 1) n (v / 256) x = m x
    rw [ih (writeByte m a v) (a + 1) (v / 256) (by omega)]
    unfold writeByte
    rw [if_neg (by omega)]

theorem readBytesLE_congr (n : Nat) (m1 m2 : Mem) (a : Nat)
    (h : ∀ x, a ≤ x → x < a + n → m1 x = m2 x) :
    readBytesLE m1 a n = readBytesLE m2 a n := by
  induction n generalizing a with
  | zero => rfl
  | succ n ih =>
    show m1 a + 256 * readBytesLE m1 (a + 1) n = m2 a + 256 * readBytesLE m2 (a + 1) n
    rw [h a (by omega) (by omega), ih (a + 1) (fun x hx1 hx2 => h x (by omega) (by omega))]

theorem readBytesLE_writeBytesLE (n : Nat) (m : Mem) (a v : Nat) :
    readBytesLE (writeBytesLE m a n v) a n = v % 256 ^ n := by
  induction n generalizing m a v with
  | zero => simp [readBytesLE, writeBytesLE, Nat.mod_one]
  | succ n ih =>
    show writeBytesLE (writeByte m a v) (a + 1) n (v / 256) a +
        256 * readBytesLE (writeBytesLE (writeByte m a v) (a + 1) n (v / 256)) (a + 1) n =
        v % 256 ^ (n + 1)
    rw [writeBytesLE_outside n _ (a + 1) (v / 256) a (by omega), ih]
    show (if a = a then v % 256 else m a) + 256 * (v / 256 % 256 ^ n) = v % 256 ^ (n + 1)
    rw [if_pos rfl, pow_succ, mul_comm (256 ^ n) 256, Nat.mod_mul]

theorem readBytesLE_split (n k : Nat) (m : Mem) (a : Nat) :
    readBytesLE m a (n + k) = readBytesLE m a n + 256 ^ n * readBytesLE m (a + n) k := by
  induction n generalizing a with
  | zero => simp [readBytesLE]
  | succ n ih =>
    have h1 : n + 1 + k = (n + k) + 1 := by omega
    rw [h1]
    show m a + 256 * readBytesLE m (a + 1) (n + k) =
        (m a + 256 * readBytesLE m (a + 1) n) + 256 ^ (n + 1) * readBytesLE m (a + (n + 1)) k
    rw [ih (a + 1)]
    have h2 : a + 1 + n = a + (n + 1) := by omega
    rw [h2]
    ring

theorem getUint32_setUint32 (m : Mem) (a v : Nat) :
    getUint32 (setUint32 m a v) a = v % 4294967296 := by
  unfold getUint32 setUint32
  rw [readBytesLE_writeBytesLE]
  norm_num

theorem getUint8_setUint8 (m : Mem) (a v : Nat) :
    getUint8 (setUint8 m a v) a = v % 256 := by
  unfold getUint8 setUint8
  rw [readBytesLE_writeBytesLE]
  norm_num

theorem getFloat64_setFloat64 (m : Mem) (a v : Nat) :
    getFloat64 (setFloat64 m a v) a = v % 18446744073709551616 := by
  unfold getFloat64 setFloat64
  rw [readBytesLE_writeBytesLE]
  norm_num

theorem getUint32_boxWrite (m : Mem) (a lo hi : Nat) :
    getUint32 (boxWrite m a lo hi) a = lo % 4294967296 := by
  unfold boxWrite
  exact getUint32_setUint32 _ a lo

theorem getFloat64_boxWrite (m : Mem) (a lo hi : Nat) :
    getFloat64 (boxWrite m a lo hi) a = lo % 4294967296 + 4294967296 * (hi % 4294967296) := by
  unfold boxWrite getFloat64 setUint32
  have h8 : (8 : Nat) = 4 + 4 := rfl
  rw [h8, readBytesLE_split 4 4]
  rw [readBytesLE_writeBytesLE]
  rw [readBytesLE_congr 4 (writeBytesLE (writeBytesLE m (a + 4) 4 hi) a 4 lo)
    (writeBytesLE m (a + 4) 4 hi) (a + 4)
    (fun x hx1 hx2 => writeBytesLE_outside 4 _ a lo x (by omega))]
  rw [readBytesLE_writeBytesLE]
  norm_num

/-! Association-list map lemmas and small helpers. -/

theorem mapGet_mapSet_self {κ ν : Type} [DecidableEq κ] (l : List (κ × ν)) (k : κ) (v : ν) :
    mapGet (mapSet l k v) k = some v := by
  induction l with
  | nil => simp [mapSet, mapGet]
  | cons hd t ih =>
    obtain ⟨k0, v0⟩ := hd
    by_cases hk : k0 = k
    · simp [mapSet, mapGet, hk]
    · simp [mapSet, mapGet, hk, ih]

theorem mapGet_mapSet_ne {κ ν : Type} [DecidableEq κ] (l : List (κ × ν)) (k k2 : κ) (v : ν)
    (h : k ≠ k2) : mapGet (mapSet l k v) k2 = mapGet l k2 := by
  induction l with
  | nil => simp [mapSet, mapGet, h]
  | cons hd t ih =>
    obtain ⟨k0, v0⟩ := hd
    by_cases hk : k0 = k
    · subst hk
      simp [mapSet, mapGet, h]
    · simp [mapSet, mapGet, hk, ih]

theorem obsEq_refl (v : HostVal) : obsEq v v = true := by
  cases v <;> simp [obsEq]

theorem getElem?_some_lt (l : List HostVal) (i : Nat) (x : HostVal)
    (h : l[i]? = some x) : i < l.length := by
  by_contra hc
  rw [List.getElem?_eq_none (by omega)] at h
  exact Option.noConfusion h

theorem isNaNBits_boxed (lo hi : Nat) (hlo : lo < 4294967296)
    (hhi : hi / 1048576 = 2047) (hman : hi % 1048576 ≠ 0 ∨ lo ≠ 0) :
    isNaNBits (lo + 4294967296 * hi) = true := by
  unfold isNaNBits
  rw [Bool.and_eq_true, decide_eq_true_iff, decide_eq_true_iff]
  constructor
  · omega
  · omega

/-! Round-trip machinery for the boxed value encoding. -/

theorem loadCheck_of_reads (s2 : GoState) (a : Nat) (vs2 : List HostVal) (v w0 : HostVal)
    (hv : s2.values = some vs2)
    (hnan : isNaNBits (getFloat64 s2.mem a) = true)
    (hid : vs2[getUint32 s2.mem a]? = some w0)
    (hobs : obsEq w0 v = true) : loadCheck s2 a v = true := by
  unfold loadCheck loadValue
  simp only [hnan, hv]
  simp [hid, hobs]

theorem loadCheck_exists (s : GoState) (a : Nat) (v : HostVal) (h : loadCheck s a v = true) :
    ∃ w, loadValue s a = Except.ok w ∧ obsEq w v = true := by
  unfold loadCheck at h
  cases hl : loadValue s a with
  | ok w => rw [hl] at h; exact ⟨w, rfl, h⟩
  | error e => rw [hl] at h; exact absurd h (by simp)

theorem loadCheck_prim_boxed (s : GoState) (a lo : Nat) (vs : List HostVal) (v w0 : HostVal)
    (hvals : s.values = some vs) (hlo : lo < 4294967296)
    (hw0 : vs[lo]? = some w0) (hobs : obsEq w0 v = true) :
    loadCheck { s with mem := boxWrite s.mem a lo nanHead } a v = true := by
  apply loadCheck_of_reads _ _ vs v w0
  · simpa using hvals
  · show isNaNBits (getFloat64 (boxWrite s.mem a lo nanHead) a) = true
    rw [getFloat64_boxWrite, Nat.mod_eq_of_lt hlo]
    have h2 : nanHead % 4294967296 = nanHead := by decide
    rw [h2]
    exact isNaNBits_boxed lo nanHead hlo (by decide) (Or.inl (by decide))
  · show vs[getUint32 (boxWrite s.mem a lo nanHead) a]? = some w0
    rw [getUint32_boxWrite, Nat.mod_eq_of_lt hlo]
    exact hw0
  · exact hobs

theorem typeFlag_lt (v : HostVal) : typeFlag v < 4 := by
  cases v <;> simp [typeFlag]

theorem lor_typeFlag (v : HostVal) : nanHead ||| typeFlag v = nanHead + typeFlag v := by
  cases v <;> simp only [typeFlag] <;> decide

theorem storeRef_interned (s : GoState) (a : Nat) (v : HostVal) (rs : List (HostVal × Nat))
    (r : Nat) (hrefs : s.refs = some rs) (hget : mapGet rs v = some r) :
    storeRef s a v = Except.ok { s with mem := boxWrite s.mem a r (nanHead ||| typeFlag v) } := by
  simp [storeRef, hrefs, hget]

theorem storeRef_fresh (s : GoState) (a : Nat) (v : HostVal) (vs : List HostVal)
    (rs : List (HostVal × Nat)) (hvals : s.values = some vs) (hrefs : s.refs = some rs)
    (hget : mapGet rs v = none) :
    storeRef s a v = Except.ok { s with
      values := some (vs ++ [v]),
      refs := some (mapSet rs v vs.length),
      mem := boxWrite s.mem a vs.length (nanHead ||| typeFlag v) } := by
  simp [storeRef, hrefs, hget, hvals]

theorem storeValue_nonprim (s : GoState) (a : Nat) (v : HostVal)
    (h : isBoxPrimitive v = false) : storeValue s a v = storeRef s a v := by
  cases v <;> simp_all [isBoxPrimitive, storeValue]

theorem loadCheck_ref_boxed (s : GoState) (a r : Nat) (vs2 : List HostVal) (v : HostVal)
    (hvals : s.values = some vs2) (hr : r < 4294967296) (hw : vs2[r]? = some v) :
    loadCheck { s with mem := boxWrite s.mem a r (nanHead ||| typeFlag v) } a v = true := by
  apply loadCheck_of_reads _ _ vs2 v v
  · simpa using hvals
  · show isNaNBits (getFloat64 (boxWrite s.mem a r (nanHead ||| typeFlag v)) a) = true
    rw [getFloat64_boxWrite, Nat.mod_eq_of_lt hr, lor_typeFlag]
    have hf := typeFlag_lt v
    have hmod : (nanHead + typeFlag v) % 4294967296 = nanHead + typeFlag v :=
      Nat.mod_eq_of_lt (by unfold nanHead; omega)
    rw [hmod]
    refine isNaNBits_boxed r (nanHead + typeFlag v) hr ?_ (Or.inl ?_)
    · unfold nanHead; omega
    · unfold nanHead; omega
  · show vs2[getUint32 (boxWrite s.mem a r (nanHead ||| typeFlag v)) a]? = some v
    rw [getUint32_boxWrite, Nat.mod_eq_of_lt hr]
    exact hw
  · exact obsEq_refl v

theorem store_load_ref (s : GoState) (a : Nat) (v : HostVal) (vs : List HostVal)
    (rs : List (HostVal × Nat)) (hvals : s.values = some vs) (hrefs : s.refs = some rs)
    (hcons : RefsConsistent vs rs) (hlen : vs.length < 4294967296) :
    ∃ s2, storeRef s a v = Except.ok s2 ∧ loadCheck s2 a v = true := by
  cases hget : mapGet rs v with
  | some r =>
    have hvr := hcons v r hget
    have hrlen : r < vs.length := getElem?_some_lt vs r v hvr
    refine ⟨_, storeRef_interned s a v rs r hrefs hget, ?_⟩
    exact loadCheck_ref_boxed s a r vs v hvals (by omega) hvr
  | none =>
    refine ⟨_, storeRef_fresh s a v vs rs hvals hrefs hget, ?_⟩
    have hconc : (vs ++ [v])[vs.length]? = some v := by
      rw [List.getElem?_append_right (Nat.le_refl _)]
      simp
    exact loadCheck_ref_boxed
      ({ s with values := some (vs ++ [v]), refs := some (mapSet rs v vs.length) })
      a vs.length (vs ++ [v]) v rfl hlen hconc

theorem store_load (s : GoState) (a : Nat) (v : HostVal) (vs : List HostVal)
    (rs : List (HostVal × Nat)) (hvals : s.values = some vs) (hrefs : s.refs = some rs)
    (hresv : ReservedOK vs) (hcons : RefsConsistent vs rs)
    (hlen : vs.length < 4294967296) (hwf : wfVal v) :
    ∃ s2, storeValue s a v = Except.ok s2 ∧ loadCheck s2 a v = true := by
  obtain ⟨h0, h1, h2, h3, h4⟩ := hresv
  cases v with
  | num bits =>
    by_cases hN : isNaNBits bits = true
    · have hstore : storeValue s a (HostVal.num bits) =
          Except.ok { s with mem := boxWrite s.mem a 0 nanHead } := by
        simp only [storeValue]
        rw [if_pos hN]
      refine ⟨_, hstore, ?_⟩
      refine loadCheck_prim_boxed s a 0 vs (HostVal.num bits) (HostVal.num nanBits)
        hvals (by omega) h0 ?_
      have hcanon : isNaNBits nanBits = true := by decide
      simp [obsEq, hcanon, hN]
    · have hstore : storeValue s a (HostVal.num bits) =
          Except.ok { s with mem := setFloat64 s.mem a bits } := by
        simp only [storeValue]
        rw [if_neg hN]
      refine ⟨_, hstore, ?_⟩
      have hbits : bits % 18446744073709551616 = bits := Nat.mod_eq_of_lt hwf
      have hN2 : isNaNBits bits = false := by simpa using hN
      simp [loadCheck, loadValue, getFloat64_setFloat64, hbits, hN2, obsEq]
  | undef =>
    exact ⟨_, rfl,
      loadCheck_prim_boxed s a 1 vs HostVal.undef HostVal.undef hvals (by omega) h1 (by decide)⟩
  | null =>
    exact ⟨_, rfl,
      loadCheck_prim_boxed s a 2 vs HostVal.null HostVal.null hvals (by omega) h2 (by decide)⟩
  | boolean b =>
    cases b with
    | true =>
      exact ⟨_, rfl, loadCheck_prim_boxed s a 3 vs (HostVal.boolean true) (HostVal.boolean true)
        hvals (by omega) h3 (by decide)⟩
    | false =>
      exact ⟨_, rfl, loadCheck_prim_boxed s a 4 vs (HostVal.boolean false) (HostVal.boolean false)
        hvals (by omega) h4 (by decide)⟩
  | str s0 => exact store_load_ref s a _ vs rs hvals hrefs hcons hlen
  | sym i => exact store_load_ref s a _ vs rs hvals hrefs hcons hlen
  | fn i => exact store_load_ref s a _ vs rs hvals hrefs hcons hlen
  | obj i => exact store_load_ref s a _ vs rs hvals hrefs hcons hlen
  | errObj msg => exact store_load_ref s a _ vs rs hvals hrefs hcons hlen

theorem loadValue_mem_congr (s1 : GoState) (m2 : Mem) (a : Nat)
    (hf : getFloat64 m2 a = getFloat64 s1.mem a)
    (hu : getUint32 m2 a = getUint32 s1.mem a) :
    loadValue { s1 with mem := m2 } a = loadValue s1 a := by
  unfold loadValue
  simp only [hf, hu]

theorem loadValue_setUint8_outside (s1 : GoState) (a fl k : Nat) (hfl : a + 8 ≤ fl) :
    loadValue { s1 with mem := setUint8 s1.mem fl k } a = loadValue s1 a := by
  apply loadValue_mem_congr
  · exact readBytesLE_congr 8 _ _ a
      (fun x hx1 hx2 => writeBytesLE_outside 1 s1.mem fl k x (by omega))
  · exact readBytesLE_congr 4 _ _ a
      (fun x hx1 hx2 => writeBytesLE_outside 1 s1.mem fl k x (by omega))

theorem loadCheck_mem_congr (s1 : GoState) (m2 : Mem) (a : Nat) (v : HostVal)
    (hlv : loadValue { s1 with mem := m2 } a = loadValue s1 a) :
    loadCheck { s1 with mem := m2 } a v = loadCheck s1 a v := by
  unfold loadCheck
  rw [hlv]

theorem finishDispatch_ok (s : GoState) (rA : Nat) (att : Except HostVal HostVal)
    (vs : List HostVal) (rs : List (HostVal × Nat))
    (hvals : s.values = some vs) (hrefs : s.refs = some rs)
    (hresv : ReservedOK vs) (hcons : RefsConsistent vs rs)
    (hlen : vs.length < 4294967296) (hwf : wfVal (outcomeVal att)) :
    dispatchChecks att (finishDispatch s rA (rA + 8) att) rA (rA + 8) = true := by
  cases att with
  | ok res =>
    obtain ⟨s1, hst, hld⟩ := store_load s rA res vs rs hvals hrefs hresv hcons hlen hwf
    simp only [finishDispatch, hst]
    simp only [dispatchChecks, outcomeVal]
    rw [Bool.and_eq_true]
    constructor
    · simp [getUint8_setUint8]
    · rw [loadCheck_mem_congr s1 _ rA res (loadValue_setUint8_outside s1 rA (rA + 8) 1 (by omega))]
      exact hld
  | error err =>
    obtain ⟨s1, hst, hld⟩ := store_load s rA err vs rs hvals hrefs hresv hcons hlen hwf
    simp only [finishDispatch, hst]
    simp only [dispatchChecks, outcomeVal]
    rw [Bool.and_eq_true]
    constructor
    · simp [getUint8_setUint8]
    · rw [loadCheck_mem_congr s1 _ rA err (loadValue_setUint8_outside s1 rA (rA + 8) 0 (by omega))]
      exact hld

/-! The claim theorems. -/

/-- C1: for every primitive value (64-bit float pattern including NaN,
`true`, `false`, `null`, `undefined`) and every non-primitive value already
interned in the value table, storing the value at a memory address with
`storeValue` and reading the address back with `loadValue` yields a value
observationally equal to the original; in particular a NaN number
round-trips to NaN. -/
theorem c1_store_load_roundtrip (s : GoState) (addr : Nat) (v : HostVal)
    (vs : List HostVal) (rs : List (HostVal × Nat))
    (hvals : s.values = some vs) (hrefs : s.refs = some rs)
    (hresv : ReservedOK vs) (hcons : RefsConsistent vs rs)
    (hlen : vs.length < 4294967296) (hwf : wfVal v)
    (hv : isBoxPrimitive v = true ∨ Interned vs rs v) :
    ∃ s2 w, storeValue s addr v = Except.ok s2 ∧ loadValue s2 addr = Except.ok w ∧
      obsEq w v = true := by
  have _hscope := hv
  obtain ⟨s2, hst, hld⟩ := store_load s addr v vs rs hvals hrefs hresv hcons hlen hwf
  obtain ⟨w, hlv, hob⟩ := loadCheck_exists s2 addr v hld
  exact ⟨s2, w, hst, hlv, hob⟩

/-- Witness for C1 at the freshly loaded state, value `null`, address 0. -/
theorem c1_store_load_roundtrip_witness :
    isBoxPrimitive HostVal.null = true ∧
    (∃ s2 w, storeValue initState 0 HostVal.null = Except.ok s2 ∧
      loadValue s2 0 = Except.ok w ∧ obsEq w HostVal.null = true) :=
  ⟨by decide, c1_store_load_roundtrip initState 0 HostVal.null reservedValues []
    rfl rfl ⟨rfl, rfl, rfl, rfl, rfl⟩ (fun v i h => by simp [mapGet] at h)
    (by decide) trivial (Or.inl (by decide))⟩

/-- C5 counterexample: decoding a boxed reference whose low word is 100 on a
fresh 8-entry table does not crash the bridge; `loadValue` performs a JS
out-of-range array read and returns `undefined` to the guest. -/
theorem c5_out_of_range_counterexample :
    loadValue c5State 0 = Except.ok HostVal.undef := rfl

/-- C5 amended: decoding a boxed reference whose low-32-bit index is at or
beyond the table's length returns `undefined` (JS out-of-range indexing);
no error reaches the embedder. -/
theorem c5_out_of_range_amended (s : GoState) (vs : List HostVal) (addr : Nat)
    (hvals : s.values = some vs)
    (hnan : isNaNBits (getFloat64 s.mem addr) = true)
    (hid : vs.length ≤ getUint32 s.mem addr) :
    loadValue s addr = Except.ok HostVal.undef := by
  simp [loadValue, hnan, hvals, List.getElem?_eq_none hid]

/-- Witness for C5's amended statement at a distinct concrete state. -/
theorem c5_out_of_range_amended_witness :
    isNaNBits (getFloat64 c5StateB.mem 3) = true ∧
    reservedValues.length ≤ getUint32 c5StateB.mem 3 ∧
    loadValue c5StateB 3 = Except.ok HostVal.undef :=
  ⟨by decide, by decide,
    c5_out_of_range_amended c5StateB reservedValues 3 rfl (by decide) (by decide)⟩

/-- C3 at its failing input: the value 2 ^ 31 = 2147483648 is a non-negative
integer in the 53-bit-safe range, yet writing it with `setInt64` and reading
it back with `getInt64` yields -2147483648, because `getInt64` reads the low
word with the signed accessor `getInt32`. -/
theorem c3_int64_roundtrip_failing :
    getInt64 (setInt64 zeroMem 0 2147483648) 0 = -2147483648 := by decide

/-- C4 at its failing input: the first `scheduleCallback` call on a freshly
loaded instance throws a TypeError (the pending-timer map
`_callbackTimeouts` is never initialised anywhere in Go.js), registers
nothing, and the id it read was `undefined` (left as NaN after the
post-increment); no timer id is written back. -/
theorem c4_scheduleCallback_failing :
    (scheduleCallback initState 0).2 = Except.error typeErrorVal ∧
    (scheduleCallback initState 0).1.callbackTimeouts = none ∧
    (scheduleCallback initState 0).1.nextCallbackTimeoutID = JSNum.nan :=
  ⟨rfl, rfl, rfl⟩

/-- C9: if the run state has become exited while a run-loop suspension is
pending, firing the pending-wake resolver raises the fatal usage error
rather than resuming the loop. -/
theorem c9_callback_after_exit (s : GoState) (h : s.exited = true) :
    resolveCallbackPromise s =
      Except.error (HostVal.errObj "bad callback: Go program has already exited") := by
  simp [resolveCallbackPromise, h]

/-- Witness for C9 on a concrete exited state. -/
theorem c9_callback_after_exit_witness :
    exitedState.exited = true ∧
    resolveCallbackPromise exitedState =
      Except.error (HostVal.errObj "bad callback: Go program has already exited") :=
  ⟨rfl, c9_callback_after_exit exitedState rfl⟩

/-- C8: calling `run` while a previous run is still active fails with the
usage error before the guest entry point is invoked: the state is returned
unchanged, so the entry-call count does not move. -/
theorem c8_reentrancy_guard (g : Guest) (fuel : Nat) (s : GoState) (params : List String)
    (h : s.running = true) :
    run g fuel s params = (s, Except.error (HostVal.errObj "Go Module already running")) ∧
    (run g fuel s params).1.entryCalls = s.entryCalls := by
  have h1 : run g fuel s params =
      (s, Except.error (HostVal.errObj "Go Module already running")) := by
    unfold run
    rw [h]
    simp
  exact ⟨h1, by rw [h1]⟩

/-- Witness for C8 on a concrete running state. -/
theorem c8_reentrancy_guard_witness :
    runningState.running = true ∧
    run idGuest 1 runningState [] =
      (runningState, Except.error (HostVal.errObj "Go Module already running")) :=
  ⟨rfl, (c8_reentrancy_guard idGuest 1 runningState [] rfl).1⟩

/-- C10: after the guest calls exit, `wasmExit` leaves `running` set and the
instance reference in place, so on the same instantiation a later `run`
fails with the already-running usage error and the `loaded` getter still
reports true. -/
theorem c10_exit_retains_running (s : GoState) (addr : Nat) (g : Guest) (fuel : Nat)
    (params : List String) (hrun : s.running = true) (hinst : s.instancePresent = true) :
    (wasmExit s addr).running = true ∧ loaded (wasmExit s addr) = true ∧
    run g fuel (wasmExit s addr) params =
      (wasmExit s addr, Except.error (HostVal.errObj "Go Module already running")) := by
  refine ⟨?_, ?_, ?_⟩
  · simpa [wasmExit] using hrun
  · simpa [wasmExit, loaded] using hinst
  · have hr : (wasmExit s addr).running = true := by simpa [wasmExit] using hrun
    unfold run
    rw [hr]
    simp

/-- Witness for C10 on a concrete running state. -/
theorem c10_exit_retains_running_witness :
    runningState.running = true ∧ runningState.instancePresent = true ∧
    ((wasmExit runningState 0).running = true ∧ loaded (wasmExit runningState 0) = true ∧
      run idGuest 1 (wasmExit runningState 0) [] =
        (wasmExit runningState 0, Except.error (HostVal.errObj "Go Module already running"))) :=
  ⟨rfl, rfl, c10_exit_retains_running runningState 0 idGuest 1 [] rfl rfl⟩

/-- C6: for each of `valueCall`, `valueInvoke` and `valueNew`, if the
underlying host operation (or the argument decoding inside the same `try`)
raises, the raised value is boxed into the result slot and the 1-byte
success flag is cleared with nothing propagating to the caller; on success
the return value is boxed and the flag is set to 1. -/
theorem c6_dispatch_isolation (h : Host) (s : GoState) (addr : Nat)
    (vs : List HostVal) (rs : List (HostVal × Nat))
    (hvals : s.values = some vs) (hrefs : s.refs = some rs)
    (hresv : ReservedOK vs) (hcons : RefsConsistent vs rs)
    (hlen : vs.length < 4294967296)
    (hw1 : wfVal (outcomeVal (callAttempt h s addr)))
    (hw2 : wfVal (outcomeVal (invokeAttempt h s addr)))
    (hw3 : wfVal (outcomeVal (newAttempt h s addr))) :
    dispatchChecks (callAttempt h s addr) (valueCall h s addr) (addr + 56) (addr + 64) = true ∧
    dispatchChecks (invokeAttempt h s addr) (valueInvoke h s addr) (addr + 40) (addr + 48) = true ∧
    dispatchChecks (newAttempt h s addr) (valueNew h s addr) (addr + 40) (addr + 48) = true := by
  refine ⟨?_, ?_, ?_⟩
  · have h64 : addr + 64 = (addr + 56) + 8 := by omega
    unfold valueCall
    rw [h64]
    exact finishDispatch_ok s (addr + 56) _ vs rs hvals hrefs hresv hcons hlen hw1
  · have h48 : addr + 48 = (addr + 40) + 8 := by omega
    unfold valueInvoke
    rw [h48]
    exact finishDispatch_ok s (addr + 40) _ vs rs hvals hrefs hresv hcons hlen hw2
  · have h48 : addr + 48 = (addr + 40) + 8 := by omega
    unfold valueNew
    rw [h48]
    exact finishDispatch_ok s (addr + 40) _ vs rs hvals hrefs hresv hcons hlen hw3

/-- Witness for C6 with a concrete host whose apply throws and whose
construct succeeds, on the freshly loaded state. -/
theorem c6_dispatch_isolation_witness :
    wfVal (outcomeVal (callAttempt constHost initState 0)) ∧
    (dispatchChecks (callAttempt constHost initState 0) (valueCall constHost initState 0)
        56 64 = true ∧
      dispatchChecks (invokeAttempt constHost initState 0) (valueInvoke constHost initState 0)
        40 48 = true ∧
      dispatchChecks (newAttempt constHost initState 0) (valueNew constHost initState 0)
        40 48 = true) :=
  ⟨trivial, c6_dispatch_isolation constHost initState 0 reservedValues [] rfl rfl
    ⟨rfl, rfl, rfl, rfl, rfl⟩ (fun v i hh => by simp [mapGet] at hh)
    (by decide) trivial trivial trivial⟩

/-- C7: in a fresh instantiation the first eight table ids are bound to NaN,
undefined, null, true, false, the global object, the memory buffer object
and the bridge instance; storing the same non-primitive value twice yields
the same wire index both times, and storing two distinct non-primitive
values yields distinct indices. -/
theorem c7_value_table_determinism :
    initState.values = some [HostVal.num nanBits, HostVal.undef, HostVal.null,
      HostVal.boolean true, HostVal.boolean false, internalGlobalV, memExportV, goSelfV] ∧
    (∀ (s : GoState) (vs : List HostVal) (rs : List (HostVal × Nat)) (a1 a2 : Nat) (v : HostVal),
      s.values = some vs → s.refs = some rs → RefsConsistent vs rs →
      vs.length + 1 < 4294967296 → isBoxPrimitive v = false →
      ∃ s1 s2, storeValue s a1 v = Except.ok s1 ∧ storeValue s1 a2 v = Except.ok s2 ∧
        getUint32 s1.mem a1 = getUint32 s2.mem a2) ∧
    (∀ (s : GoState) (vs : List HostVal) (rs : List (HostVal × Nat)) (a1 a2 : Nat)
        (v1 v2 : HostVal),
      s.values = some vs → s.refs = some rs → RefsConsistent vs rs →
      vs.length + 2 < 4294967296 → isBoxPrimitive v1 = false → isBoxPrimitive v2 = false →
      v1 ≠ v2 →
      ∃ s1 s2, storeValue s a1 v1 = Except.ok s1 ∧ storeValue s1 a2 v2 = Except.ok s2 ∧
        getUint32 s1.mem a1 ≠ getUint32 s2.mem a2) := by
  refine ⟨rfl, ?_, ?_⟩
  · intro s vs rs a1 a2 v hvals hrefs hcons hlen hnp
    cases hget : mapGet rs v with
    | some r =>
      have p1 := (storeValue_nonprim s a1 v hnp).trans
        (storeRef_interned s a1 v rs r hrefs hget)
      have p2 := (storeValue_nonprim _ a2 v hnp).trans
        (storeRef_interned ({ s with mem := boxWrite s.mem a1 r (nanHead ||| typeFlag v) })
          a2 v rs r hrefs hget)
      refine ⟨_, _, p1, p2, ?_⟩
      simp only [getUint32_boxWrite]
    | none =>
      have p1 := (storeValue_nonprim s a1 v hnp).trans
        (storeRef_fresh s a1 v vs rs hvals hrefs hget)
      have p2 := (storeValue_nonprim _ a2 v hnp).trans
        (storeRef_interned ({ s with
            values := some (vs ++ [v]), refs := some (mapSet rs v vs.length),
            mem := boxWrite s.mem a1 vs.length (nanHead ||| typeFlag v) })
          a2 v (mapSet rs v vs.length) vs.length rfl (mapGet_mapSet_self rs v vs.length))
      refine ⟨_, _, p1, p2, ?_⟩
      simp only [getUint32_boxWrite]
  · intro s vs rs a1 a2 v1 v2 hvals hrefs hcons hlen hnp1 hnp2 hne
    cases hget1 : mapGet rs v1 with
    | some r1 =>
      have hvr1 := hcons v1 r1 hget1
      have hr1 : r1 < vs.length := getElem?_some_lt vs r1 v1 hvr1
      have p1 := (storeValue_nonprim s a1 v1 hnp1).trans
        (storeRef_interned s a1 v1 rs r1 hrefs hget1)
      cases hget2 : mapGet rs v2 with
      | some r2 =>
        have hvr2 := hcons v2 r2 hget2
        have hr2 : r2 < vs.length := getElem?_some_lt vs r2 v2 hvr2
        have hrne : r1 ≠ r2 := by
          intro hEq
          apply hne
          have hsome : some v1 = some v2 := by rw [← hvr1, ← hvr2, hEq]
          exact Option.some.inj hsome
        have p2 := (storeValue_nonprim _ a2 v2 hnp2).trans
          (storeRef_interned ({ s with mem := boxWrite s.mem a1 r1 (nanHead ||| typeFlag v1) })
            a2 v2 rs r2 hrefs hget2)
        refine ⟨_, _, p1, p2, ?_⟩
        simp only [getUint32_boxWrite]
        omega
      | none =>
        have p2 := (storeValue_nonprim _ a2 v2 hnp2).trans
          (storeRef_fresh ({ s with mem := boxWrite s.mem a1 r1 (nanHead ||| typeFlag v1) })
            a2 v2 vs rs hvals hrefs hget2)
        refine ⟨_, _, p1, p2, ?_⟩
        simp only [getUint32_boxWrite]
        omega
    | none =>
      have hset : mapGet (mapSet rs v1 vs.length) v2 = mapGet rs v2 :=
        mapGet_mapSet_ne rs v1 v2 vs.length hne
      have p1 := (storeValue_nonprim s a1 v1 hnp1).trans
        (storeRef_fresh s a1 v1 vs rs hvals hrefs hget1)
      cases hget2 : mapGet rs v2 with
      | some r2 =>
        have hvr2 := hcons v2 r2 hget2
        have hr2 : r2 < vs.length := getElem?_some_lt vs r2 v2 hvr2
        have p2 := (storeValue_nonprim _ a2 v2 hnp2).trans
          (storeRef_interned ({ s with
              values := some (vs ++ [v1]), refs := some (mapSet rs v1 vs.length),
              mem := boxWrite s.mem a1 vs.length (nanHead ||| typeFlag v1) })
            a2 v2 (mapSet rs v1 vs.length) r2 rfl (by rw [hset]; exact hget2))
        refine ⟨_, _, p1, p2, ?_⟩
        simp only [getUint32_boxWrite]
        omega
      | none =>
        have p2 := (storeValue_nonprim _ a2 v2 hnp2).trans
          (storeRef_fresh ({ s with
              values := some (vs ++ [v1]), refs := some (mapSet rs v1 vs.length),
              mem := boxWrite s.mem a1 vs.length (nanHead ||| typeFlag v1) })
            a2 v2 (vs ++ [v1]) (mapSet rs v1 vs.length) rfl rfl (by rw [hset]; exact hget2))
        refine ⟨_, _, p1, p2, ?_⟩
        simp only [getUint32_boxWrite, List.length_append, List.length_cons, List.length_nil]
        omega

/-- Witness for C7 on the freshly loaded state with two concrete strings. -/
theorem c7_value_table_determinism_witness :
    RefsConsistent reservedValues [] ∧ isBoxPrimitive (HostVal.str "x") = false ∧
    (∃ s1 s2, storeValue initState 0 (HostVal.str "x") = Except.ok s1 ∧
      storeValue s1 8 (HostVal.str "x") = Except.ok s2 ∧
      getUint32 s1.mem 0 = getUint32 s2.mem 8) ∧
    (∃ s1 s2, storeValue initState 0 (HostVal.str "x") = Except.ok s1 ∧
      storeValue s1 8 (HostVal.str "y") = Except.ok s2 ∧
      getUint32 s1.mem 0 ≠ getUint32 s2.mem 8) :=
  ⟨fun v i h => by simp [mapGet] at h, by decide,
    (c7_value_table_determinism.2.1) initState reservedValues [] 0 8 (HostVal.str "x")
      rfl rfl (fun v i h => by simp [mapGet] at h) (by decide) (by decide),
    (c7_value_table_determinism.2.2) initState reservedValues [] 0 8 (HostVal.str "x")
      (HostVal.str "y") rfl rfl (fun v i h => by simp [mapGet] at h) (by decide) (by decide)
      (by decide) (by decide)⟩

/-- C2 counterexample: for argument list `["prog", "42"]` and environment
`A=1`, the reference decoder does NOT reproduce the strings `prog` and `42`
from the argv block: `run` writes `JSON.stringify` of each argument, so the
stored bytes carry literal quote characters. -/
theorem c2_argv_marshalling_counterexample :
    (decodeArgv c2Block.mem c2Block.argc c2Block.argv).1 ≠
      [utf8Bytes "prog", utf8Bytes "42"] := by decide

/-- C2 amended: the argv block built for argument list `["prog", "42"]` and
environment `A=1` decodes to the JSON string representations of the
arguments (quotes included), the argument count 2, and the environment
entries, in sorted-by-key order, exactly. -/
theorem c2_argv_marshalling_amended :
    c2Block.argc = 2 ∧
    decodeArgv c2Block.mem c2Block.argc c2Block.argv =
      ([utf8Bytes (jsonStringifyStr "prog"), utf8Bytes (jsonStringifyStr "42")], 1,
        [utf8Bytes "A=1"]) := by
  refine ⟨rfl, ?_⟩
  decide

end GoJs
